import Mathlib

/-!
Verification development for the Poisson-disk point generator of
`poisson-grid.h` (namespace `PoissonGenerator`, version 1.1.4).

Modelling conventions:
* `float` values are modelled as exact rationals (`ℚ`); every floating
  operation of the source becomes the corresponding exact rational
  operation.  The two square roots the source computes
  (`sqrt(2.0f)` in the cell-size derivation and `sqrt(float(NumPoints))`
  in the auto-derivation of `MinDist`) are irrational, hence not
  representable in the rational model; they enter the model as the two
  parameters `sqrt2` and `sqrtN` of `Params`, and theorems constrain them
  by explicit rational bounds.
* The PRNG template parameter is modelled by `RNG`: a call counter
  together with one output stream for `RandomFloat` and one for
  `RandomInt`.  Any concrete single-threaded PRNG (such as the source's
  `DefaultPRNG`) is extensionally one of these, since the generator is
  its only caller.
* The `std::vector` grid rows are modelled as a total function
  `ℤ → ℤ → sPoint`; the in-bounds discipline of the accesses is itself
  one of the verified claims, so the model must be able to express an
  out-of-range cell address.
* The outer `while` loop is modelled as an iterated step function with
  an explicit iteration budget `loopFuel`; the budget is proved
  sufficient (`genStep_iterate_fixed`): the iterate reaches a state
  where the loop guard has failed, exactly as the C++ loop does.
  The initial `do/while` rejection loop is genuinely unbounded in the
  source, so it is modelled with a fuel parameter and an `Option`
  result: `none` means the draw had not succeeded after `seedFuel`
  attempts.
-/

/-- C cast from a floating value to `int`: truncation toward zero. -/
def ratTrunc (q : ℚ) : ℤ := if 0 ≤ q then ⌊q⌋ else -⌊-q⌋

/-- Model of the PRNG template parameter: a call counter `n`, a stream
`fl` of `RandomFloat` results and a stream `ig` of `RandomInt` results
(the latter may consult the `Max` argument). -/
structure RNG where
  n : ℕ
  fl : ℕ → ℚ
  ig : ℕ → ℕ → ℕ

/-- `RandomFloat()`: next value of the float stream. -/
def RNG.RandomFloat (r : RNG) : ℚ × RNG := (r.fl r.n, ⟨r.n + 1, r.fl, r.ig⟩)

/-- `RandomInt(Max)`: next value of the int stream. -/
def RNG.RandomInt (r : RNG) (max : ℕ) : ℕ × RNG := (r.ig r.n max, ⟨r.n + 1, r.fl, r.ig⟩)

/-- The contract of the source's `DefaultPRNG`: floats in `[0,1)`
(`std::uniform_real_distribution<float>(0,1)`) and ints in `[0,Max]`
(`std::uniform_int_distribution<>(0,Max)`). -/
def RNG.WF (r : RNG) : Prop :=
  (∀ m, 0 ≤ r.fl m ∧ r.fl m < 1) ∧ (∀ m max, r.ig m max ≤ max)

/-- `struct sPoint`: a 2D coordinate plus validity flag. -/
structure sPoint where
  x : ℚ
  y : ℚ
  m_Valid : Bool
  deriving DecidableEq

/-- The default constructor `sPoint()`: the invalid grid sentinel. -/
def sPoint.invalidPoint : sPoint := ⟨0, 0, false⟩

/-- The constructor `sPoint(X, Y)`: a valid point. -/
def sPoint.make (X Y : ℚ) : sPoint := ⟨X, Y, true⟩

/-- `sPoint::IsInRectangle`: `x >= 0 && y >= 0 && x <= 1 && y <= 1`. -/
def sPoint.IsInRectangle (p : sPoint) : Bool :=
  decide (0 ≤ p.x) && decide (0 ≤ p.y) && decide (p.x ≤ 1) && decide (p.y ≤ 1)

/-- `sPoint::IsInCircle`: `(x-0.5)² + (y-0.5)² ≤ 0.25`. -/
def sPoint.IsInCircle (p : sPoint) : Bool :=
  decide ((p.x - 1/2) * (p.x - 1/2) + (p.y - 1/2) * (p.y - 1/2) ≤ 1/4)

/-- `sPoint::Dist2`: squared distance from `p` to `q`. -/
def sPoint.Dist2 (p q : sPoint) : ℚ :=
  (p.x - q.x) * (p.x - q.x) + (p.y - q.y) * (p.y - q.y)

/-- `struct sGrid`: dimensions plus cell storage.  The nested
`std::vector` storage is modelled as a total function on `ℤ × ℤ`; the
real storage only backs the rectangle `[0, m_W) × [0, m_H)`, which is
what claim C10 is about. -/
structure sGrid where
  m_W : ℤ
  m_H : ℤ
  m_Grid : ℤ → ℤ → sPoint

/-- The `sGrid(W, H)` constructor: all cells hold the invalid sentinel. -/
def sGrid.new (W H : ℤ) : sGrid := ⟨W, H, fun _ _ => sPoint.invalidPoint⟩

/-- `sGrid::GridPoint`: `{ int(P.x * m_W), int(P.y * m_H) }`. -/
def sGrid.GridPoint (g : sGrid) (P : sPoint) : ℤ × ℤ :=
  (ratTrunc (P.x * g.m_W), ratTrunc (P.y * g.m_H))

/-- `sGrid::Insert`: write `P` into its cell, unconditionally
overwriting.  The source performs no bounds check here. -/
def sGrid.Insert (g : sGrid) (P : sPoint) : sGrid :=
  { g with m_Grid := fun i j =>
      if i = (g.GridPoint P).1 ∧ j = (g.GridPoint P).2 then P else g.m_Grid i j }

/-- `sGrid::IsInNeighbourhood`: scan the window
`[G.x - 5, G.x + 5) × [G.y - 5, G.y + 5)`, skipping out-of-range cells,
returning `true` iff some scanned cell holds a valid point at squared
distance `< MinDist2` from `Point`. -/
def sGrid.IsInNeighbourhood (g : sGrid) (Point : sPoint) (MinDist2 : ℚ) : Bool :=
  (List.range 10).any fun di =>
    (List.range 10).any fun dj =>
      let i : ℤ := (g.GridPoint Point).1 - 5 + di
      let j : ℤ := (g.GridPoint Point).2 - 5 + dj
      decide (0 ≤ i) && decide (i < g.m_W) && decide (0 ≤ j) && decide (j < g.m_H) &&
        ((g.m_Grid i j).m_Valid && decide ((g.m_Grid i j).Dist2 Point < MinDist2))

/-- `PopRandom`: draw `Idx = RandomInt(size - 1)`, return `Points[Idx]`,
swap it with the last element and drop the last element. -/
def PopRandom (Points : List sPoint) (r : RNG) : sPoint × List sPoint × RNG :=
  let p := r.RandomInt (Points.length - 1)
  let P := Points.getD p.1 sPoint.invalidPoint
  (P, (Points.set p.1 (Points.getD (Points.length - 1) sPoint.invalidPoint)).dropLast, p.2)

/-- `GenerateRandomPointAround`: radius `MinDist * (R1 + 1)` and the
non-normalised direction `(2·u - 1, 2·v - 1)`, consuming three floats
in the source's order. -/
def GenerateRandomPointAround (P : sPoint) (MinDist : ℚ) (r : RNG) : sPoint × RNG :=
  let a := r.RandomFloat
  let radius := MinDist * (a.1 + 1)
  let b := a.2.RandomFloat
  let c := 2 * b.1 - 1
  let d := b.2.RandomFloat
  let s := 2 * d.1 - 1
  (sPoint.make (P.x + radius * c) (P.y + radius * s), d.2)

/-- The parameters of `GeneratePoissonPoints`, together with the two
square-root values the source obtains from `sqrt` (see the header
comment: they are inputs of the rational model). -/
structure Params where
  numPoints : ℕ
  newPointsCount : ℤ
  circle : Bool
  minDist : ℚ
  sqrt2 : ℚ
  sqrtN : ℚ
  deriving DecidableEq

/-- `if (MinDist < 0.0f) MinDist = sqrt(NumPoints)/NumPoints`. -/
def Params.effMinDist (P : Params) : ℚ :=
  if P.minDist < 0 then P.sqrtN / (P.numPoints : ℚ) else P.minDist

/-- `float CellSize = MinDist / sqrt(2.0f)`. -/
def Params.cellSize (P : Params) : ℚ := P.effMinDist / P.sqrt2

/-- `float MinDist2 = MinDist * MinDist`. -/
def Params.minDist2 (P : Params) : ℚ := P.effMinDist * P.effMinDist

/-- `int GridW = (int)ceil(1.0f / CellSize)`. -/
def Params.gridW (P : Params) : ℤ := ⌈(1 : ℚ) / P.cellSize⌉

/-- `int GridH = (int)ceil(1.0f / CellSize)`. -/
def Params.gridH (P : Params) : ℤ := ⌈(1 : ℚ) / P.cellSize⌉

/-- The domain predicate selected by the `Circle` flag:
`Circle ? IsInCircle() : IsInRectangle()`. -/
def Params.fits (P : Params) (p : sPoint) : Bool :=
  if P.circle then p.IsInCircle else p.IsInRectangle

/-- The mutable state of one `GeneratePoissonPoints` invocation. -/
structure sState where
  processList : List sPoint
  samplePoints : List sPoint
  grid : sGrid
  rng : RNG

/-- One pass of the inner `for (i = 0; i < NewPointsCount; i++)` body:
generate a candidate around `center`, accept it iff it fits the domain
and has no neighbour within `MinDist2`. -/
def oneAttempt (P : Params) (center : sPoint) (s : sState) : sState :=
  let np := GenerateRandomPointAround center P.effMinDist s.rng
  if P.fits np.1 && !(s.grid.IsInNeighbourhood np.1 P.minDist2) then
    { processList := s.processList ++ [np.1]
      samplePoints := s.samplePoints ++ [np.1]
      grid := s.grid.Insert np.1
      rng := np.2 }
  else
    { s with rng := np.2 }

/-- The inner `for` loop, iterated `n` times. -/
def attemptsLoop (P : Params) (center : sPoint) : ℕ → sState → sState
  | 0, s => s
  | n + 1, s => attemptsLoop P center n (oneAttempt P center s)

/-- One iteration of the outer
`while (!ProcessList.empty() && SamplePoints.size() < NumPoints)` loop;
the identity once the guard fails. -/
def genStep (P : Params) (s : sState) : sState :=
  if s.processList ≠ [] ∧ s.samplePoints.length < P.numPoints then
    let pop := PopRandom s.processList s.rng
    attemptsLoop P pop.1 P.newPointsCount.toNat
      { s with processList := pop.2.1, rng := pop.2.2 }
  else s

/-- An iteration budget sufficient for the outer loop to reach its exit
condition (proved by `genStep_iterate_fixed`). -/
def loopFuel (P : Params) : ℕ := 1 + P.numPoints * (P.newPointsCount.toNat + 1)

/-- The state right after the seed phase: the first point is pushed to
`ProcessList` and `SamplePoints` and inserted into the grid. -/
def initState (P : Params) (p0 : sPoint) (r : RNG) : sState :=
  ⟨[p0], [p0], (sGrid.new P.gridW P.gridH).Insert p0, r⟩

/-- The `do { FirstPoint = sPoint(RandomFloat(), RandomFloat()); }
while (!fits)` rejection loop, bounded by fuel (the source loop is
unbounded; `none` = no success within `fuel` draws). -/
def seedLoop (P : Params) : ℕ → RNG → Option (sPoint × RNG)
  | 0, _ => none
  | fuel + 1, r =>
    let a := r.RandomFloat
    let b := a.2.RandomFloat
    let p := sPoint.make a.1 b.1
    if P.fits p then some (p, b.2) else seedLoop P fuel b.2

/-- `GeneratePoissonPoints`: the single entry point.  Returns `none`
only if the initial rejection loop did not succeed within `seedFuel`
draws (the source would still be looping in that case). -/
def GeneratePoissonPoints (P : Params) (r : RNG) (seedFuel : ℕ) : Option (List sPoint) :=
  match seedLoop P seedFuel r with
  | none => none
  | some (p0, r1) => some ((genStep P)^[loopFuel P] (initState P p0 r1)).samplePoints

/-! ## Basic lemmas about the embedded operations -/

/-- For a nonnegative value the C truncation cast agrees with `⌊·⌋`. -/
theorem ratTrunc_of_nonneg {q : ℚ} (h : 0 ≤ q) : ratTrunc q = ⌊q⌋ := by
  simp [ratTrunc, h]

/-- A point produced by `GenerateRandomPointAround` carries `m_Valid`. -/
theorem GenerateRandomPointAround_valid (P : sPoint) (m : ℚ) (r : RNG) :
    (GenerateRandomPointAround P m r).1.m_Valid = true := rfl

/-- A point accepted by either domain predicate has both coordinates in
`[0, 1]`. -/
theorem Params.fits_bounds {P : Params} {p : sPoint} (h : P.fits p = true) :
    0 ≤ p.x ∧ p.x ≤ 1 ∧ 0 ≤ p.y ∧ p.y ≤ 1 := by
  unfold Params.fits at h
  by_cases hc : P.circle
  · rw [if_pos hc] at h
    unfold sPoint.IsInCircle at h
    rw [decide_eq_true_eq] at h
    refine ⟨by nlinarith [mul_self_nonneg (p.y - 1/2)], by nlinarith [mul_self_nonneg (p.y - 1/2)],
      by nlinarith [mul_self_nonneg (p.x - 1/2)], by nlinarith [mul_self_nonneg (p.x - 1/2)]⟩
  · rw [if_neg hc] at h
    unfold sPoint.IsInRectangle at h
    simp only [Bool.and_eq_true, decide_eq_true_eq] at h
    exact ⟨h.1.1.1, h.1.2, h.1.1.2, h.2⟩

/-- Characterisation of the neighbourhood scan: it returns `true` iff
some cell of the `[Gx-5, Gx+5) × [Gy-5, Gy+5)` window that lies inside
the grid bounds holds a valid point at squared distance `< MinDist2`. -/
theorem IsInNeighbourhood_spec (g : sGrid) (p : sPoint) (m2 : ℚ) :
    g.IsInNeighbourhood p m2 = true ↔
      ∃ i j : ℤ,
        ((g.GridPoint p).1 - 5 ≤ i ∧ i < (g.GridPoint p).1 + 5 ∧
         (g.GridPoint p).2 - 5 ≤ j ∧ j < (g.GridPoint p).2 + 5) ∧
        (0 ≤ i ∧ i < g.m_W ∧ 0 ≤ j ∧ j < g.m_H) ∧
        (g.m_Grid i j).m_Valid = true ∧ (g.m_Grid i j).Dist2 p < m2 := by
  unfold sGrid.IsInNeighbourhood
  simp only [List.any_eq_true, List.mem_range, Bool.and_eq_true, decide_eq_true_eq]
  constructor
  · rintro ⟨di, hdi, dj, hdj, ⟨⟨⟨h1, h2⟩, h3⟩, h4⟩, h5, h6⟩
    exact ⟨(g.GridPoint p).1 - 5 + di, (g.GridPoint p).2 - 5 + dj,
      ⟨by omega, by omega, by omega, by omega⟩, ⟨h1, h2, h3, h4⟩, h5, h6⟩
  · rintro ⟨i, j, ⟨w1, w2, w3, w4⟩, ⟨b1, b2, b3, b4⟩, hv, hd⟩
    refine ⟨(i - ((g.GridPoint p).1 - 5)).toNat, by omega,
            (j - ((g.GridPoint p).2 - 5)).toNat, by omega, ?_⟩
    have hi : (g.GridPoint p).1 - 5 + ((i - ((g.GridPoint p).1 - 5)).toNat : ℤ) = i := by omega
    have hj : (g.GridPoint p).2 - 5 + ((j - ((g.GridPoint p).2 - 5)).toNat : ℤ) = j := by omega
    rw [hi, hj]
    exact ⟨⟨⟨⟨b1, b2⟩, b3⟩, b4⟩, hv, hd⟩

/-- The neighbourhood scan reads only in-bounds cells: two grids with
the same dimensions that agree on every cell inside
`[0, m_W) × [0, m_H)` produce the same scan result everywhere. -/
theorem IsInNeighbourhood_congr (g g' : sGrid) (hW : g.m_W = g'.m_W) (hH : g.m_H = g'.m_H)
    (hc : ∀ i j : ℤ, 0 ≤ i → i < g.m_W → 0 ≤ j → j < g.m_H → g.m_Grid i j = g'.m_Grid i j)
    (p : sPoint) (m2 : ℚ) :
    g.IsInNeighbourhood p m2 = g'.IsInNeighbourhood p m2 := by
  have hgp : g.GridPoint p = g'.GridPoint p := by
    unfold sGrid.GridPoint; rw [hW, hH]
  cases hb : g.IsInNeighbourhood p m2 <;> cases hb' : g'.IsInNeighbourhood p m2 <;> try rfl
  · exfalso
    obtain ⟨i, j, hw, hbnd, hv, hd⟩ := (IsInNeighbourhood_spec g' p m2).mp hb'
    have hcell : g.m_Grid i j = g'.m_Grid i j := by
      refine hc i j hbnd.1 ?_ hbnd.2.2.1 ?_
      · rw [hW]; exact hbnd.2.1
      · rw [hH]; exact hbnd.2.2.2
    have : g.IsInNeighbourhood p m2 = true := by
      refine (IsInNeighbourhood_spec g p m2).mpr ⟨i, j, ?_, ?_, ?_, ?_⟩
      · rw [hgp]; exact hw
      · rw [hW, hH]; exact hbnd
      · rw [hcell]; exact hv
      · rw [hcell]; exact hd
    rw [this] at hb; exact Bool.false_ne_true hb.symm
  · exfalso
    obtain ⟨i, j, hw, hbnd, hv, hd⟩ := (IsInNeighbourhood_spec g p m2).mp hb
    have hcell : g.m_Grid i j = g'.m_Grid i j :=
      hc i j hbnd.1 hbnd.2.1 hbnd.2.2.1 hbnd.2.2.2
    have : g'.IsInNeighbourhood p m2 = true := by
      refine (IsInNeighbourhood_spec g' p m2).mpr ⟨i, j, ?_, ?_, ?_, ?_⟩
      · rw [← hgp]; exact hw
      · rw [← hW, ← hH]; exact hbnd
      · rw [← hcell]; exact hv
      · rw [← hcell]; exact hd
    rw [this] at hb'; exact Bool.false_ne_true hb'.symm

/-! ## Geometry of the derived grid -/

/-- Both grid dimensions are computed by the same expression. -/
theorem Params.gridH_eq_gridW (P : Params) : P.gridH = P.gridW := rfl

/-- `GridW = ceil(1 / (MinDist / sqrt2)) = ceil(sqrt2 / MinDist)`. -/
theorem Params.gridW_eq (P : Params) :
    P.gridW = ⌈P.sqrt2 / P.effMinDist⌉ := by
  unfold Params.gridW Params.cellSize
  rw [one_div_div]

/-- Side conditions for the grid geometry: positive effective minimum
distance and a `sqrt2` stand-in in `[√2, 3/2]` (any rational upper
approximation of `√2` below `3/2` qualifies, e.g. `3/2` itself). -/
structure GoodParams (P : Params) : Prop where
  eff_pos : 0 < P.effMinDist
  s2_pos : 0 < P.sqrt2
  s2_sq : 2 ≤ P.sqrt2 * P.sqrt2
  s2_ub : P.sqrt2 ≤ 3/2

/-- The derived grid width is positive. -/
theorem Params.gridW_pos {P : Params} (hP : GoodParams P) : 0 < P.gridW := by
  rw [Params.gridW_eq]
  exact Int.ceil_pos.mpr (div_pos hP.s2_pos hP.eff_pos)

/-- Two rationals at distance at most `4` have floors within the
asymmetric window `[⌊b⌋ - 5, ⌊b⌋ + 5)`. -/
theorem floor_window {a b : ℚ} (h1 : a - b ≤ 4) (h2 : b - a ≤ 4) :
    ⌊b⌋ - 5 ≤ ⌊a⌋ ∧ ⌊a⌋ < ⌊b⌋ + 5 := by
  have fa1 := Int.floor_le a
  have fa2 := Int.lt_floor_add_one a
  have fb1 := Int.floor_le b
  have fb2 := Int.lt_floor_add_one b
  constructor
  · have hz : ((⌊b⌋ : ℚ)) - 5 < ((⌊a⌋ : ℚ)) + 1 := by linarith
    have hz2 : (⌊b⌋ : ℤ) - 5 < (⌊a⌋ : ℤ) + 1 := by exact_mod_cast hz
    omega
  · have hz : ((⌊a⌋ : ℚ)) < ((⌊b⌋ : ℚ)) + 5 := by linarith
    exact_mod_cast hz

/-- Axis-wise window coverage: if `q` lies strictly inside the unit
interval, `n` lies in it, and the two coordinates are closer than the
effective minimum distance, then the cell index of `q` lies inside the
scan window of `n` and inside the grid bounds. -/
theorem cell_window {P : Params} (hP : GoodParams P) {qx nx : ℚ}
    (hq0 : 0 ≤ qx) (hq1 : qx < 1) (hn0 : 0 ≤ nx) (hn1 : nx ≤ 1)
    (hclose : (qx - nx) * (qx - nx) < P.effMinDist * P.effMinDist) :
    (⌊nx * (P.gridW : ℚ)⌋ - 5 ≤ ⌊qx * (P.gridW : ℚ)⌋ ∧
      ⌊qx * (P.gridW : ℚ)⌋ < ⌊nx * (P.gridW : ℚ)⌋ + 5) ∧
    0 ≤ ⌊qx * (P.gridW : ℚ)⌋ ∧ ⌊qx * (P.gridW : ℚ)⌋ < P.gridW := by
  have hWpos : 0 < P.gridW := Params.gridW_pos hP
  have hWQ : (0 : ℚ) < (P.gridW : ℚ) := by exact_mod_cast hWpos
  have hWge : P.sqrt2 / P.effMinDist ≤ (P.gridW : ℚ) := by
    rw [Params.gridW_eq]; exact Int.le_ceil _
  have hWlt : (P.gridW : ℚ) < P.sqrt2 / P.effMinDist + 1 := by
    rw [Params.gridW_eq]; exact Int.ceil_lt_add_one _
  have h1 : qx - nx < P.effMinDist := by nlinarith [hP.eff_pos]
  have h2 : nx - qx < P.effMinDist := by nlinarith [hP.eff_pos]
  have hdiff : (qx * (P.gridW : ℚ)) - nx * (P.gridW : ℚ) ≤ 4 ∧
      (nx * (P.gridW : ℚ)) - qx * (P.gridW : ℚ) ≤ 4 := by
    rcases le_or_lt P.effMinDist 1 with he | he
    · have hWeff : (P.gridW : ℚ) * P.effMinDist < P.sqrt2 + P.effMinDist := by
        have := mul_lt_mul_of_pos_right hWlt hP.eff_pos
        rwa [add_mul, one_mul, div_mul_cancel₀ _ (ne_of_gt hP.eff_pos)] at this
      have e1 : (qx - nx) * (P.gridW : ℚ) < P.effMinDist * (P.gridW : ℚ) :=
        mul_lt_mul_of_pos_right h1 hWQ
      have e2 : (nx - qx) * (P.gridW : ℚ) < P.effMinDist * (P.gridW : ℚ) :=
        mul_lt_mul_of_pos_right h2 hWQ
      have hub : P.effMinDist * (P.gridW : ℚ) < 5/2 + 1 := by
        have := hP.s2_ub
        nlinarith [hWeff]
      constructor <;> nlinarith [e1, e2, hub]
    · have hW2 : P.gridW ≤ 2 := by
        rw [Params.gridW_eq]
        refine Int.ceil_le.mpr ?_
        rw [div_le_iff₀ hP.eff_pos]
        push_cast
        linarith [hP.s2_ub]
      have hW2Q : (P.gridW : ℚ) ≤ 2 := by exact_mod_cast hW2
      constructor
      · nlinarith [mul_le_mul_of_nonneg_right (show qx - nx ≤ 1 by linarith) (le_of_lt hWQ)]
      · nlinarith [mul_le_mul_of_nonneg_right (show nx - qx ≤ 1 by linarith) (le_of_lt hWQ)]
  refine ⟨floor_window hdiff.1 hdiff.2, ?_, ?_⟩
  · exact Int.floor_nonneg.mpr (mul_nonneg hq0 hWQ.le)
  · refine Int.floor_lt.mpr ?_
    calc qx * (P.gridW : ℚ) < 1 * (P.gridW : ℚ) := mul_lt_mul_of_pos_right hq1 hWQ
    _ = ((P.gridW : ℤ) : ℚ) := by rw [one_mul]

/-- Packing bound: two nonnegative points that fall in the same grid
cell are strictly closer than the effective minimum distance. -/
theorem same_cell_close {P : Params} (hP : GoodParams P) {q np : sPoint}
    (hcx : ⌊q.x * (P.gridW : ℚ)⌋ = ⌊np.x * (P.gridW : ℚ)⌋)
    (hcy : ⌊q.y * (P.gridW : ℚ)⌋ = ⌊np.y * (P.gridW : ℚ)⌋) :
    q.Dist2 np < P.minDist2 := by
  have hWpos : 0 < P.gridW := Params.gridW_pos hP
  have hWQ : (0 : ℚ) < (P.gridW : ℚ) := by exact_mod_cast hWpos
  have hWge : P.sqrt2 / P.effMinDist ≤ (P.gridW : ℚ) := by
    rw [Params.gridW_eq]; exact Int.le_ceil _
  have hs : P.sqrt2 ≤ (P.gridW : ℚ) * P.effMinDist := by
    rw [div_le_iff₀ hP.eff_pos] at hWge; linarith
  have hx1 : q.x * (P.gridW : ℚ) - np.x * (P.gridW : ℚ) < 1 := by
    have a1 := Int.floor_le (np.x * (P.gridW : ℚ))
    have a2 := Int.lt_floor_add_one (q.x * (P.gridW : ℚ))
    rw [hcx] at a2
    push_cast at a1 a2
    linarith
  have hx2 : np.x * (P.gridW : ℚ) - q.x * (P.gridW : ℚ) < 1 := by
    have a1 := Int.floor_le (q.x * (P.gridW : ℚ))
    have a2 := Int.lt_floor_add_one (np.x * (P.gridW : ℚ))
    rw [← hcx] at a2
    push_cast at a1 a2
    linarith
  have hy1 : q.y * (P.gridW : ℚ) - np.y * (P.gridW : ℚ) < 1 := by
    have a1 := Int.floor_le (np.y * (P.gridW : ℚ))
    have a2 := Int.lt_floor_add_one (q.y * (P.gridW : ℚ))
    rw [hcy] at a2
    push_cast at a1 a2
    linarith
  have hy2 : np.y * (P.gridW : ℚ) - q.y * (P.gridW : ℚ) < 1 := by
    have a1 := Int.floor_le (q.y * (P.gridW : ℚ))
    have a2 := Int.lt_floor_add_one (np.y * (P.gridW : ℚ))
    rw [← hcy] at a2
    push_cast at a1 a2
    linarith
  have hxsq : ((q.x - np.x) * (P.gridW : ℚ)) * ((q.x - np.x) * (P.gridW : ℚ)) < 1 := by
    nlinarith [hx1, hx2]
  have hysq : ((q.y - np.y) * (P.gridW : ℚ)) * ((q.y - np.y) * (P.gridW : ℚ)) < 1 := by
    nlinarith [hy1, hy2]
  have hsum : ((q.x - np.x) * (q.x - np.x) + (q.y - np.y) * (q.y - np.y)) *
      ((P.gridW : ℚ) * (P.gridW : ℚ)) < 2 := by nlinarith [hxsq, hysq]
  have hcap : 2 ≤ ((P.gridW : ℚ) * P.effMinDist) * ((P.gridW : ℚ) * P.effMinDist) := by
    nlinarith [hs, hP.s2_sq, hP.s2_pos, hP.eff_pos, hWQ]
  unfold sPoint.Dist2 Params.minDist2
  nlinarith [hsum, hcap, hWQ, mul_pos hWQ hWQ]

/-! ## Structure of one loop iteration -/

/-- Case analysis for one inner-loop pass: either a candidate was
accepted (appended to both lists and inserted into the grid) or the
state is unchanged apart from the consumed randomness. -/
theorem oneAttempt_cases (P : Params) (c : sPoint) (s : sState) :
    (∃ np : sPoint, np.m_Valid = true ∧ P.fits np = true ∧
        s.grid.IsInNeighbourhood np P.minDist2 = false ∧
        (oneAttempt P c s).processList = s.processList ++ [np] ∧
        (oneAttempt P c s).samplePoints = s.samplePoints ++ [np] ∧
        (oneAttempt P c s).grid = s.grid.Insert np) ∨
      ((oneAttempt P c s).processList = s.processList ∧
        (oneAttempt P c s).samplePoints = s.samplePoints ∧
        (oneAttempt P c s).grid = s.grid) := by
  unfold oneAttempt
  rcases hcond : P.fits (GenerateRandomPointAround c P.effMinDist s.rng).1 &&
      !(s.grid.IsInNeighbourhood (GenerateRandomPointAround c P.effMinDist s.rng).1 P.minDist2)
    with hval | hval
  · right
    rw [if_neg]
    · exact ⟨rfl, rfl, rfl⟩
    · rw [hcond]; exact Bool.false_ne_true
  · left
    refine ⟨(GenerateRandomPointAround c P.effMinDist s.rng).1,
      GenerateRandomPointAround_valid c P.effMinDist s.rng, ?_, ?_, ?_⟩
    · have := hcond
      rw [Bool.and_eq_true] at this
      exact this.1
    · have := hcond
      rw [Bool.and_eq_true] at this
      simpa using this.2
    · rw [if_pos hcond]
      exact ⟨rfl, rfl, rfl⟩

/-- Insertion does not change the grid dimensions. -/
theorem sGrid.Insert_m_W (g : sGrid) (p : sPoint) : (g.Insert p).m_W = g.m_W := rfl

/-- Insertion does not change the grid dimensions. -/
theorem sGrid.Insert_m_H (g : sGrid) (p : sPoint) : (g.Insert p).m_H = g.m_H := rfl

/-- The cell address is computed from the dimensions only, so it is
unaffected by insertions. -/
theorem sGrid.Insert_GridPoint (g : sGrid) (p q : sPoint) :
    (g.Insert q).GridPoint p = g.GridPoint p := rfl

/-- The inner loop appends one common suffix of at most `n` accepted
points to both lists and preserves the grid dimensions. -/
theorem attemptsLoop_spec (P : Params) (c : sPoint) :
    ∀ (n : ℕ) (s : sState), ∃ t : List sPoint,
      (attemptsLoop P c n s).processList = s.processList ++ t ∧
      (attemptsLoop P c n s).samplePoints = s.samplePoints ++ t ∧
      t.length ≤ n ∧
      (attemptsLoop P c n s).grid.m_W = s.grid.m_W ∧
      (attemptsLoop P c n s).grid.m_H = s.grid.m_H
  | 0, s => ⟨[], by simp [attemptsLoop]⟩
  | n + 1, s => by
    obtain ⟨t, h1, h2, h3, h4, h5⟩ := attemptsLoop_spec P c n (oneAttempt P c s)
    simp only [attemptsLoop]
    rcases oneAttempt_cases P c s with ⟨np, _, _, _, hp, hsamp, hgrid⟩ | ⟨hp, hsamp, hgrid⟩
    · refine ⟨np :: t, ?_, ?_, by simpa using h3, ?_, ?_⟩
      · rw [h1, hp, List.append_assoc]; rfl
      · rw [h2, hsamp, List.append_assoc]; rfl
      · rw [h4, hgrid, sGrid.Insert_m_W]
      · rw [h5, hgrid, sGrid.Insert_m_H]
    · refine ⟨t, ?_, ?_, by omega, ?_, ?_⟩
      · rw [h1, hp]
      · rw [h2, hsamp]
      · rw [h4, hgrid]
      · rw [h5, hgrid]

/-- `PopRandom` removes exactly one element from a non-empty list. -/
theorem PopRandom_length (ps : List sPoint) (r : RNG) :
    (PopRandom ps r).2.1.length = ps.length - 1 := by
  unfold PopRandom
  simp [List.length_dropLast]

/-- Termination measure of the outer loop. -/
def meas (P : Params) (s : sState) : ℕ :=
  s.processList.length +
    (P.numPoints - s.samplePoints.length) * (P.newPointsCount.toNat + 1)

/-- Each iteration of the outer loop with a true guard strictly
decreases the measure. -/
theorem meas_genStep_lt (P : Params) (s : sState)
    (h : s.processList ≠ [] ∧ s.samplePoints.length < P.numPoints) :
    meas P (genStep P s) < meas P s := by
  have hlen : 0 < s.processList.length := List.length_pos.mpr h.1
  unfold genStep
  rw [if_pos h]
  obtain ⟨t, h1, h2, h3, _, _⟩ :=
    attemptsLoop_spec P (PopRandom s.processList s.rng).1 P.newPointsCount.toNat
      { s with processList := (PopRandom s.processList s.rng).2.1,
               rng := (PopRandom s.processList s.rng).2.2 }
  unfold meas
  rw [h1, h2]
  simp only [List.length_append, PopRandom_length s.processList s.rng]
  set L := s.processList.length with hL
  set S := s.samplePoints.length with hS
  set K := P.newPointsCount.toNat + 1 with hK
  set a := t.length with ha
  have haK : a ≤ K - 1 := by omega
  rcases le_or_lt (P.numPoints - S) a with hc | hc
  · have hz : P.numPoints - (S + a) = 0 := by omega
    rw [hz, Nat.zero_mul]
    have h5 : K ≤ (P.numPoints - S) * K := by
      have : 1 ≤ P.numPoints - S := by omega
      calc K = 1 * K := (Nat.one_mul K).symm
      _ ≤ (P.numPoints - S) * K := Nat.mul_le_mul_right K this
    omega
  · have hz : P.numPoints - (S + a) = (P.numPoints - S) - a := by omega
    rw [hz, Nat.sub_mul]
    have hy : a * K ≤ (P.numPoints - S) * K := Nat.mul_le_mul_right K (le_of_lt hc)
    have hay : a ≤ a * K := by
      calc a = a * 1 := (Nat.mul_one a).symm
      _ ≤ a * K := Nat.mul_le_mul_left a (by omega)
    omega

/-- Once the guard has failed the step function is the identity, and
stays so. -/
theorem genStep_eq_self (P : Params) (s : sState)
    (h : ¬(s.processList ≠ [] ∧ s.samplePoints.length < P.numPoints)) :
    genStep P s = s := by
  unfold genStep
  rw [if_neg h]

/-- Iterating a fixed point changes nothing. -/
theorem genStep_iterate_of_fixed (P : Params) (s : sState)
    (h : genStep P s = s) : ∀ m, (genStep P)^[m] s = s := by
  intro m
  induction m with
  | zero => rfl
  | succ m ih => rw [Function.iterate_succ_apply, h, ih]

/-- As soon as the iteration budget covers the measure, the iterate has
reached a state where the loop guard fails: the modelled loop has
terminated exactly like the C++ loop. -/
theorem genStep_iterate_fixed (P : Params) :
    ∀ (n : ℕ) (s : sState), meas P s ≤ n →
      genStep P ((genStep P)^[n] s) = (genStep P)^[n] s := by
  intro n
  induction n with
  | zero =>
    intro s hs
    have : s.processList.length = 0 := by
      unfold meas at hs; omega
    refine genStep_eq_self P s ?_
    rintro ⟨h1, -⟩
    exact h1 (List.length_eq_zero.mp this)
  | succ n ih =>
    intro s hs
    by_cases hg : s.processList ≠ [] ∧ s.samplePoints.length < P.numPoints
    · rw [Function.iterate_succ_apply]
      exact ih (genStep P s) (by have := meas_genStep_lt P s hg; omega)
    · have hfix := genStep_eq_self P s hg
      rw [genStep_iterate_of_fixed P s hfix]
      exact hfix

/-- The initial measure is covered by `loopFuel`. -/
theorem meas_initState_le (P : Params) (p0 : sPoint) (r : RNG) :
    meas P (initState P p0 r) ≤ loopFuel P := by
  unfold meas initState loopFuel
  simp only [List.length_singleton]
  have : (P.numPoints - 1) * (P.newPointsCount.toNat + 1) ≤
      P.numPoints * (P.newPointsCount.toNat + 1) :=
    Nat.mul_le_mul_right _ (Nat.sub_le _ _)
  omega

/-! ## The main invariant of the generator -/

/-- Invariant on the accepted list `L` and grid `G`: every accepted
point fits the domain, is valid, and — when it lies strictly inside the
unit square — is stored in the grid at its own cell; accepted points
are pairwise separated by `MinDist2` whenever the earlier point lies
strictly inside the unit square. -/
structure GenInv (P : Params) (L : List sPoint) (G : sGrid) : Prop where
  gW : G.m_W = P.gridW
  gH : G.m_H = P.gridW
  dom : ∀ p ∈ L, P.fits p = true
  val : ∀ p ∈ L, p.m_Valid = true
  stored : ∀ p ∈ L, p.x < 1 → p.y < 1 →
    G.m_Grid (G.GridPoint p).1 (G.GridPoint p).2 = p
  sep : List.Pairwise (fun p q => p.x < 1 → p.y < 1 → P.minDist2 ≤ p.Dist2 q) L

/-- On a grid with the derived dimensions, the cell of a nonnegative
point is the pair of floors. -/
theorem GridPoint_floor {P : Params} {G : sGrid} (hW : G.m_W = P.gridW)
    (hH : G.m_H = P.gridW) (hWnn : 0 ≤ P.gridW) {p : sPoint}
    (hx : 0 ≤ p.x) (hy : 0 ≤ p.y) :
    G.GridPoint p = (⌊p.x * (P.gridW : ℚ)⌋, ⌊p.y * (P.gridW : ℚ)⌋) := by
  have hWQ : (0 : ℚ) ≤ (P.gridW : ℚ) := by exact_mod_cast hWnn
  unfold sGrid.GridPoint
  rw [hW, hH, ratTrunc_of_nonneg (mul_nonneg hx hWQ), ratTrunc_of_nonneg (mul_nonneg hy hWQ)]

/-- If a candidate passed the domain test and the neighbourhood scan
came back negative, the candidate is separated by `MinDist2` from every
accepted point that lies strictly inside the unit square. -/
theorem accept_separated {P : Params} (hP : GoodParams P) {L : List sPoint} {G : sGrid}
    (hInv : GenInv P L G) {np : sPoint} (hfits : P.fits np = true)
    (hscan : G.IsInNeighbourhood np P.minDist2 = false) :
    ∀ q ∈ L, q.x < 1 → q.y < 1 → P.minDist2 ≤ q.Dist2 np := by
  intro q hq hqx hqy
  by_contra hlt
  push_neg at hlt
  obtain ⟨hq0, hq1, hq0y, hq1y⟩ := Params.fits_bounds (hInv.dom q hq)
  obtain ⟨hn0, hn1, hn0y, hn1y⟩ := Params.fits_bounds hfits
  have hDlt : (q.x - np.x) * (q.x - np.x) + (q.y - np.y) * (q.y - np.y) <
      P.effMinDist * P.effMinDist := hlt
  have hclosex : (q.x - np.x) * (q.x - np.x) < P.effMinDist * P.effMinDist := by
    nlinarith [mul_self_nonneg (q.y - np.y)]
  have hclosey : (q.y - np.y) * (q.y - np.y) < P.effMinDist * P.effMinDist := by
    nlinarith [mul_self_nonneg (q.x - np.x)]
  have hwx := cell_window hP hq0 hqx hn0 hn1 hclosex
  have hwy := cell_window hP hq0y hqy hn0y hn1y hclosey
  have hWnn : 0 ≤ P.gridW := le_of_lt (Params.gridW_pos hP)
  have hgq := GridPoint_floor hInv.gW hInv.gH hWnn hq0 hq0y
  have hgn := GridPoint_floor hInv.gW hInv.gH hWnn hn0 hn0y
  have hst := hInv.stored q hq hqx hqy
  have htrue : G.IsInNeighbourhood np P.minDist2 = true := by
    refine (IsInNeighbourhood_spec G np P.minDist2).mpr
      ⟨(G.GridPoint q).1, (G.GridPoint q).2, ?_, ?_, ?_, ?_⟩
    · rw [hgq, hgn]
      exact ⟨hwx.1.1, hwx.1.2, hwy.1.1, hwy.1.2⟩
    · rw [hgq, hInv.gW, hInv.gH]
      exact ⟨hwx.2.1, hwx.2.2, hwy.2.1, hwy.2.2⟩
    · rw [hst]; exact hInv.val q hq
    · rw [hst]; exact hlt
  rw [htrue] at hscan
  exact Bool.noConfusion hscan

/-- An accepted candidate never lands in the cell of a stored in-square
point: its insertion evicts nothing. -/
theorem accept_cell_fresh {P : Params} (hP : GoodParams P) {L : List sPoint} {G : sGrid}
    (hInv : GenInv P L G) {np : sPoint} (hfits : P.fits np = true)
    (hscan : G.IsInNeighbourhood np P.minDist2 = false) :
    ∀ q ∈ L, q.x < 1 → q.y < 1 → G.GridPoint q ≠ G.GridPoint np := by
  intro q hq hqx hqy heq
  obtain ⟨hq0, hq1, hq0y, hq1y⟩ := Params.fits_bounds (hInv.dom q hq)
  obtain ⟨hn0, hn1, hn0y, hn1y⟩ := Params.fits_bounds hfits
  have hWnn : 0 ≤ P.gridW := le_of_lt (Params.gridW_pos hP)
  have hgq := GridPoint_floor hInv.gW hInv.gH hWnn hq0 hq0y
  have hgn := GridPoint_floor hInv.gW hInv.gH hWnn hn0 hn0y
  rw [hgq, hgn, Prod.mk.injEq] at heq
  have hclose := same_cell_close hP heq.1 heq.2
  have hsep := accept_separated hP hInv hfits hscan q hq hqx hqy
  exact absurd hclose (not_lt.mpr hsep)

/-- Accepting a candidate preserves the invariant. -/
theorem GenInv_insert {P : Params} (hP : GoodParams P) {L : List sPoint} {G : sGrid}
    (hInv : GenInv P L G) {np : sPoint} (hval : np.m_Valid = true)
    (hfits : P.fits np = true) (hscan : G.IsInNeighbourhood np P.minDist2 = false) :
    GenInv P (L ++ [np]) (G.Insert np) := by
  refine ⟨?_, ?_, ?_, ?_, ?_, ?_⟩
  · rw [sGrid.Insert_m_W, hInv.gW]
  · rw [sGrid.Insert_m_H, hInv.gH]
  · intro p hp
    rcases List.mem_append.mp hp with hpl | hpr
    · exact hInv.dom p hpl
    · rw [List.mem_singleton.mp hpr]; exact hfits
  · intro p hp
    rcases List.mem_append.mp hp with hpl | hpr
    · exact hInv.val p hpl
    · rw [List.mem_singleton.mp hpr]; exact hval
  · intro p hp hx hy
    rcases List.mem_append.mp hp with hpl | hpr
    · rw [sGrid.Insert_GridPoint]
      show (if (G.GridPoint p).1 = (G.GridPoint np).1 ∧ (G.GridPoint p).2 = (G.GridPoint np).2
        then np else G.m_Grid (G.GridPoint p).1 (G.GridPoint p).2) = p
      rw [if_neg, hInv.stored p hpl hx hy]
      intro hcell
      exact accept_cell_fresh hP hInv hfits hscan p hpl hx hy (Prod.ext hcell.1 hcell.2)
    · have hpe := List.mem_singleton.mp hpr
      subst hpe
      rw [sGrid.Insert_GridPoint]
      show (if (G.GridPoint p).1 = (G.GridPoint p).1 ∧ (G.GridPoint p).2 = (G.GridPoint p).2
        then p else G.m_Grid (G.GridPoint p).1 (G.GridPoint p).2) = p
      rw [if_pos ⟨rfl, rfl⟩]
  · refine List.pairwise_append.mpr ⟨hInv.sep, List.pairwise_singleton _ _, ?_⟩
    intro a ha b hb
    rw [List.mem_singleton.mp hb]
    intro hx hy
    exact accept_separated hP hInv hfits hscan a ha hx hy

/-- One inner-loop pass preserves the invariant. -/
theorem GenInv_oneAttempt {P : Params} (hP : GoodParams P) (c : sPoint) {s : sState}
    (h : GenInv P s.samplePoints s.grid) :
    GenInv P (oneAttempt P c s).samplePoints (oneAttempt P c s).grid := by
  rcases oneAttempt_cases P c s with ⟨np, hval, hfits, hscan, _, hsamp, hgrid⟩ |
    ⟨_, hsamp, hgrid⟩
  · rw [hsamp, hgrid]
    exact GenInv_insert hP h hval hfits hscan
  · rw [hsamp, hgrid]
    exact h

/-- The whole inner loop preserves the invariant. -/
theorem GenInv_attemptsLoop {P : Params} (hP : GoodParams P) (c : sPoint) :
    ∀ (n : ℕ) (s : sState), GenInv P s.samplePoints s.grid →
      GenInv P (attemptsLoop P c n s).samplePoints (attemptsLoop P c n s).grid
  | 0, s, h => h
  | n + 1, s, h => by
    simp only [attemptsLoop]
    exact GenInv_attemptsLoop hP c n (oneAttempt P c s) (GenInv_oneAttempt hP c h)

/-- One outer-loop iteration preserves the invariant. -/
theorem GenInv_genStep {P : Params} (hP : GoodParams P) {s : sState}
    (h : GenInv P s.samplePoints s.grid) :
    GenInv P (genStep P s).samplePoints (genStep P s).grid := by
  unfold genStep
  by_cases hg : s.processList ≠ [] ∧ s.samplePoints.length < P.numPoints
  · rw [if_pos hg]
    exact GenInv_attemptsLoop hP _ _ _ h
  · rw [if_neg hg]
    exact h

/-- The invariant is preserved by any number of outer-loop iterations. -/
theorem GenInv_iterate {P : Params} (hP : GoodParams P) (n : ℕ) :
    ∀ (s : sState), GenInv P s.samplePoints s.grid →
      GenInv P ((genStep P)^[n] s).samplePoints ((genStep P)^[n] s).grid := by
  induction n with
  | zero => intro s h; exact h
  | succ n ih =>
    intro s h
    rw [Function.iterate_succ_apply]
    exact ih (genStep P s) (GenInv_genStep hP h)

/-- The invariant holds right after the seed phase. -/
theorem GenInv_initState (P : Params) (p0 : sPoint) (r : RNG)
    (hfits : P.fits p0 = true) (hval : p0.m_Valid = true) :
    GenInv P (initState P p0 r).samplePoints (initState P p0 r).grid := by
  refine ⟨rfl, Params.gridH_eq_gridW P ▸ rfl, ?_, ?_, ?_, ?_⟩
  · intro p hp; rw [List.mem_singleton.mp hp]; exact hfits
  · intro p hp; rw [List.mem_singleton.mp hp]; exact hval
  · intro p hp _ _
    rw [List.mem_singleton.mp hp]
    show (if ((sGrid.new P.gridW P.gridH).GridPoint p0).1 =
          ((sGrid.new P.gridW P.gridH).GridPoint p0).1 ∧
          ((sGrid.new P.gridW P.gridH).GridPoint p0).2 =
          ((sGrid.new P.gridW P.gridH).GridPoint p0).2
      then p0 else sPoint.invalidPoint) = p0
    rw [if_pos ⟨rfl, rfl⟩]
  · exact List.pairwise_singleton _ _

/-- The seed returned by the rejection loop fits the domain and is
valid. -/
theorem seedLoop_fits {P : Params} :
    ∀ (f : ℕ) (r : RNG) (p0 : sPoint) (r1 : RNG),
      seedLoop P f r = some (p0, r1) → P.fits p0 = true ∧ p0.m_Valid = true
  | 0, r, p0, r1, h => by simp [seedLoop] at h
  | f + 1, r, p0, r1, h => by
    unfold seedLoop at h
    by_cases hc : P.fits (sPoint.make (r.RandomFloat.1) (r.RandomFloat.2.RandomFloat.1)) = true
    · rw [if_pos hc] at h
      injection h with h
      injection h with h1 h2
      subst h1
      exact ⟨hc, rfl⟩
    · rw [if_neg hc] at h
      exact seedLoop_fits f _ p0 r1 h

/-- A successful run of the generator satisfies the invariant on its
output together with some final grid. -/
theorem GeneratePoissonPoints_GenInv {P : Params} {r : RNG} {F : ℕ} {out : List sPoint}
    (hP : GoodParams P) (hg : GeneratePoissonPoints P r F = some out) :
    ∃ G : sGrid, GenInv P out G := by
  unfold GeneratePoissonPoints at hg
  cases hs : seedLoop P F r with
  | none => rw [hs] at hg; exact absurd hg (by simp)
  | some pr =>
    obtain ⟨p0, r1⟩ := pr
    rw [hs] at hg
    injection hg with hg
    obtain ⟨hfits, hval⟩ := seedLoop_fits F r p0 r1 hs
    have h0 := GenInv_initState P p0 r1 hfits hval
    have hfin := GenInv_iterate hP (loopFuel P) (initState P p0 r1) h0
    rw [hg] at hfin
    exact ⟨_, hfin⟩

/-! ## Lightweight run invariants (no geometric side conditions) -/

/-- One inner pass only ever appends domain-fitting points. -/
theorem fits_oneAttempt (P : Params) (c : sPoint) (s : sState)
    (h : ∀ p ∈ s.samplePoints, P.fits p = true) :
    ∀ p ∈ (oneAttempt P c s).samplePoints, P.fits p = true := by
  rcases oneAttempt_cases P c s with ⟨np, _, hfits, _, _, hsamp, _⟩ | ⟨_, hsamp, _⟩
  · rw [hsamp]
    intro p hp
    rcases List.mem_append.mp hp with hpl | hpr
    · exact h p hpl
    · rw [List.mem_singleton.mp hpr]; exact hfits
  · rw [hsamp]; exact h

/-- The inner loop only ever appends domain-fitting points. -/
theorem fits_attemptsLoop (P : Params) (c : sPoint) :
    ∀ (n : ℕ) (s : sState), (∀ p ∈ s.samplePoints, P.fits p = true) →
      ∀ p ∈ (attemptsLoop P c n s).samplePoints, P.fits p = true
  | 0, s, h => h
  | n + 1, s, h => by
    simp only [attemptsLoop]
    exact fits_attemptsLoop P c n _ (fits_oneAttempt P c s h)

/-- One outer iteration only ever appends domain-fitting points. -/
theorem fits_genStep (P : Params) (s : sState)
    (h : ∀ p ∈ s.samplePoints, P.fits p = true) :
    ∀ p ∈ (genStep P s).samplePoints, P.fits p = true := by
  unfold genStep
  by_cases hg : s.processList ≠ [] ∧ s.samplePoints.length < P.numPoints
  · rw [if_pos hg]
    exact fits_attemptsLoop P _ _ _ h
  · rw [if_neg hg]; exact h

/-- Arbitrarily many outer iterations only append domain-fitting points. -/
theorem fits_iterate (P : Params) (n : ℕ) :
    ∀ (s : sState), (∀ p ∈ s.samplePoints, P.fits p = true) →
      ∀ p ∈ ((genStep P)^[n] s).samplePoints, P.fits p = true := by
  induction n with
  | zero => intro s h; exact h
  | succ n ih =>
    intro s h
    rw [Function.iterate_succ_apply]
    exact ih (genStep P s) (fits_genStep P s h)

/-- Every point of a successful run fits the selected domain. -/
theorem GeneratePoissonPoints_fits {P : Params} {r : RNG} {F : ℕ} {out : List sPoint}
    (hg : GeneratePoissonPoints P r F = some out) :
    ∀ p ∈ out, P.fits p = true := by
  unfold GeneratePoissonPoints at hg
  cases hs : seedLoop P F r with
  | none => rw [hs] at hg; exact absurd hg (by simp)
  | some pr =>
    obtain ⟨p0, r1⟩ := pr
    rw [hs] at hg
    injection hg with hg
    obtain ⟨hfits, _⟩ := seedLoop_fits F r p0 r1 hs
    have h0 : ∀ p ∈ (initState P p0 r1).samplePoints, P.fits p = true := by
      intro p hp
      rw [List.mem_singleton.mp hp]
      exact hfits
    rw [← hg]
    exact fits_iterate P (loopFuel P) (initState P p0 r1) h0

/-- Upper bound that the output length actually satisfies. -/
def lenBound (P : Params) : ℕ := max 1 (P.numPoints - 1 + P.newPointsCount.toNat)

/-- One outer iteration keeps the output length below `lenBound`. -/
theorem len_genStep (P : Params) (s : sState)
    (h : s.samplePoints.length ≤ lenBound P) :
    (genStep P s).samplePoints.length ≤ lenBound P := by
  unfold genStep
  by_cases hg : s.processList ≠ [] ∧ s.samplePoints.length < P.numPoints
  · rw [if_pos hg]
    obtain ⟨t, _, h2, h3, _, _⟩ :=
      attemptsLoop_spec P (PopRandom s.processList s.rng).1 P.newPointsCount.toNat
        { s with processList := (PopRandom s.processList s.rng).2.1,
                 rng := (PopRandom s.processList s.rng).2.2 }
    rw [h2]
    simp only [List.length_append]
    have := hg.2
    have hb : s.samplePoints.length + t.length ≤
        P.numPoints - 1 + P.newPointsCount.toNat := by omega
    exact le_trans hb (Nat.le_max_right _ _)
  · rw [if_neg hg]; exact h

/-- Any number of outer iterations keeps the length below `lenBound`. -/
theorem len_iterate (P : Params) (n : ℕ) :
    ∀ (s : sState), s.samplePoints.length ≤ lenBound P →
      ((genStep P)^[n] s).samplePoints.length ≤ lenBound P := by
  induction n with
  | zero => intro s h; exact h
  | succ n ih =>
    intro s h
    rw [Function.iterate_succ_apply]
    exact ih (genStep P s) (len_genStep P s h)

/-- One outer iteration only appends to the output list. -/
theorem genStep_samples_append (P : Params) (s : sState) :
    ∃ t : List sPoint, (genStep P s).samplePoints = s.samplePoints ++ t := by
  unfold genStep
  by_cases hg : s.processList ≠ [] ∧ s.samplePoints.length < P.numPoints
  · rw [if_pos hg]
    obtain ⟨t, _, h2, _, _, _⟩ :=
      attemptsLoop_spec P (PopRandom s.processList s.rng).1 P.newPointsCount.toNat
        { s with processList := (PopRandom s.processList s.rng).2.1,
                 rng := (PopRandom s.processList s.rng).2.2 }
    exact ⟨t, h2⟩
  · rw [if_neg hg]
    exact ⟨[], (List.append_nil _).symm⟩

/-- Any number of outer iterations only appends to the output list. -/
theorem iterate_samples_append (P : Params) :
    ∀ (n : ℕ) (s : sState), ∃ t : List sPoint,
      ((genStep P)^[n] s).samplePoints = s.samplePoints ++ t
  | 0, s => ⟨[], (List.append_nil _).symm⟩
  | n + 1, s => by
    rw [Function.iterate_succ_apply]
    obtain ⟨t1, h1⟩ := genStep_samples_append P s
    obtain ⟨t2, h2⟩ := iterate_samples_append P n (genStep P s)
    exact ⟨t1 ++ t2, by rw [h2, h1, List.append_assoc]⟩

/-- With `NumPoints ≤ 1` (or the process list exhausted at once) the
outer loop never changes the state after the seed: helper computing the
first outer iteration when the inner loop runs zero times. -/
theorem genStep_initState_of_no_attempts (P : Params) (p0 : sPoint) (r1 : RNG)
    (hk : P.newPointsCount.toNat = 0) (hN : 1 < P.numPoints) :
    genStep P (initState P p0 r1) =
      { processList := []
        samplePoints := [p0]
        grid := (initState P p0 r1).grid
        rng := (PopRandom [p0] r1).2.2 } := by
  have hpop : (PopRandom [p0] r1).2.1 = [] := by
    have := PopRandom_length [p0] r1
    simp only [List.length_singleton] at this
    exact List.length_eq_zero.mp this
  unfold genStep
  rw [if_pos]
  · rw [hk]
    show ({ (initState P p0 r1) with
        processList := (PopRandom (initState P p0 r1).processList (initState P p0 r1).rng).2.1,
        rng := (PopRandom (initState P p0 r1).processList (initState P p0 r1).rng).2.2 } :
      sState) = _
    rw [show (initState P p0 r1).processList = [p0] from rfl,
        show (initState P p0 r1).rng = r1 from rfl, hpop]
    rfl
  · exact ⟨List.cons_ne_nil _ _, by simpa [initState] using hN⟩

/-- The generator output only depends on the streams of the random
source: two sources with identical counters and output streams produce
identical results. -/
theorem RNG_ext {r1 r2 : RNG} (hn : r1.n = r2.n) (hf : ∀ m, r1.fl m = r2.fl m)
    (hi : ∀ m k, r1.ig m k = r2.ig m k) : r1 = r2 := by
  obtain ⟨n1, f1, g1⟩ := r1
  obtain ⟨n2, f2, g2⟩ := r2
  simp only at hn hf hi
  subst hn
  congr 1
  · funext m; exact hf m
  · funext m k; exact hi m k

/-! ## Concrete scripted runs used by counterexamples and witnesses -/

/-- Constant random source: every float is `1/2`, every int is `0`. -/
def cstRNG : RNG := ⟨0, fun _ => 1/2, fun _ _ => 0⟩

/-- Float stream of the overshoot run. -/
def ovF : ℕ → ℚ := fun n => if n = 4 then 11/12 else if n = 7 then 1/12 else 1/2

/-- Random source of the overshoot run. -/
def ovRNG : RNG := ⟨0, ovF, fun _ _ => 0⟩

/-- Parameters of the overshoot run: `targetCount = 2`,
`attemptsPerPoint = 2`, square domain, explicit `minDist = 1/5`. -/
def ovParams : Params := ⟨2, 2, false, 1/5, 3/2, 0⟩

/-- Output of the overshoot run: three points. -/
def ovOut : List sPoint := [⟨1/2, 1/2, true⟩, ⟨3/4, 1/2, true⟩, ⟨1/4, 1/2, true⟩]

/-- Float stream of the boundary run: it drives the generator to accept
the point `(1, 1/5)`, which sits on the `x = 1` edge of the square. -/
def bdF : ℕ → ℚ := fun n =>
  if n = 0 then 7/10 else if n = 1 then 1/5 else
  if n = 3 then 3/4 else if n = 4 then 13/14 else
  if n = 7 then 0 else if n = 8 then 3/8 else 1/2

/-- Random source of the boundary runs. -/
def bdRNG : RNG := ⟨0, bdF, fun _ _ => 0⟩

/-- Parameters of the 3-point boundary run. -/
def bdParams : Params := ⟨3, 1, false, 1/5, 3/2, 0⟩

/-- Output of the 3-point boundary run: the second and third points are
at squared distance `1/400 < (1/5)² = 1/25`. -/
def bdOut : List sPoint := [⟨7/10, 1/5, true⟩, ⟨1, 1/5, true⟩, ⟨19/20, 1/5, true⟩]

/-- Parameters of the 2-point boundary run (stops right after accepting
the boundary point). -/
def b2Params : Params := ⟨2, 1, false, 1/5, 3/2, 0⟩

/-- Output of the 2-point boundary run. -/
def b2Out : List sPoint := [⟨7/10, 1/5, true⟩, ⟨1, 1/5, true⟩]

/-- Square-domain parameters asking for a single point. -/
def sqParams : Params := ⟨1, 30, false, 1/5, 3/2, 0⟩

/-- Disk-domain parameters asking for a single point. -/
def dkParams : Params := ⟨1, 30, true, 1/5, 3/2, 0⟩

/-- Parameters with `targetCount = 0`. -/
def zeroParams : Params := ⟨0, 30, false, 1/5, 3/2, 0⟩

/-- Parameters with `attemptsPerPoint = 0` and `targetCount = 2`. -/
def oneParams : Params := ⟨2, 0, false, 1/5, 3/2, 0⟩

/-- Parameters with `minDist = 0` and `targetCount = 4` (so that
`sqrt(targetCount)/targetCount = 2/4 = 1/2`, exactly representable). -/
def mdParams : Params := ⟨4, 30, true, 0, 3/2, 2⟩

/-! ## The claims -/

/-- C1 counterexample: with `targetCount = 2` and `attemptsPerPoint = 2`
this scripted run returns 3 points: the inner `for` loop does not
re-check `SamplePoints.size() < NumPoints` inside a batch, so the
output exceeds the requested count. -/
theorem C1_counterexample :
    GeneratePoissonPoints ovParams ovRNG 1 = some ovOut ∧
      ovParams.numPoints < ovOut.length := by
  constructor
  · with_unfolding_all rfl
  · decide

/-- C1 (amended): the output length is bounded by
`max 1 (targetCount - 1 + max attemptsPerPoint 0)` (truncated ℕ
subtraction).  The claimed bound `targetCount` itself fails: the seed
is produced even for `targetCount = 0`, and an inner batch finishes
after the count is reached. -/
theorem C1_length_bound {P : Params} {r : RNG} {F : ℕ} {out : List sPoint}
    (hg : GeneratePoissonPoints P r F = some out) :
    out.length ≤ max 1 (P.numPoints - 1 + P.newPointsCount.toNat) := by
  unfold GeneratePoissonPoints at hg
  cases hs : seedLoop P F r with
  | none => rw [hs] at hg; exact absurd hg (by simp)
  | some pr =>
    obtain ⟨p0, r1⟩ := pr
    rw [hs] at hg
    injection hg with hg
    have h0 : (initState P p0 r1).samplePoints.length ≤ lenBound P :=
      le_trans (by simp [initState]) (Nat.le_max_left _ _)
    rw [← hg]
    exact len_iterate P (loopFuel P) (initState P p0 r1) h0

/-- C1 witness: the amended bound evaluated on the overshoot run. -/
theorem C1_length_bound_witness :
    GeneratePoissonPoints ovParams ovRNG 1 = some ovOut ∧
      ovOut.length ≤ max 1 (ovParams.numPoints - 1 + ovParams.newPointsCount.toNat) :=
  ⟨by with_unfolding_all rfl, @C1_length_bound ovParams ovRNG 1 ovOut (by with_unfolding_all rfl)⟩

/-- C2 counterexample: on the boundary run the accepted points
`(1, 1/5)` and `(19/20, 1/5)` are distinct output points at squared
distance `1/400`, sixteen times below `minDist² = 1/25` — far beyond
any floating round-off tolerance.  (The point `(1, 1/5)` was inserted
at the out-of-range cell `(8, 1)` and became invisible to later
scans.) -/
theorem C2_counterexample :
    GeneratePoissonPoints bdParams bdRNG 1 = some bdOut ∧
    (⟨1, 1/5, true⟩ : sPoint) ∈ bdOut ∧
    (⟨19/20, 1/5, true⟩ : sPoint) ∈ bdOut ∧
    (⟨1, 1/5, true⟩ : sPoint) ≠ ⟨19/20, 1/5, true⟩ ∧
    sPoint.Dist2 ⟨1, 1/5, true⟩ ⟨19/20, 1/5, true⟩ * 16 ≤ bdParams.minDist2 ∧
    sPoint.Dist2 ⟨1, 1/5, true⟩ ⟨19/20, 1/5, true⟩ < bdParams.minDist2 := by
  refine ⟨by with_unfolding_all rfl, ?_, ?_, ?_, ?_, ?_⟩ <;> with_unfolding_all decide

/-- C2 (amended): separation holds exactly (`ε = 0`) for every ordered
pair of output points whose earlier point lies strictly inside the unit
square, under the `GoodParams` side conditions (positive effective
minimum distance, `sqrt2` a rational upper approximation of `√2` at
most `3/2`).  The unrestricted claim fails only through accepted
boundary points with `x = 1` or `y = 1`, which are stored outside the
grid (claim C10). -/
theorem C2_separation {P : Params} {r : RNG} {F : ℕ} {out : List sPoint}
    (hP : GoodParams P) (hg : GeneratePoissonPoints P r F = some out) :
    List.Pairwise (fun p q => p.x < 1 → p.y < 1 → P.minDist2 ≤ p.Dist2 q) out := by
  obtain ⟨G, hInv⟩ := GeneratePoissonPoints_GenInv hP hg
  exact hInv.sep

/-- C2 witness: the amended separation statement evaluated on the
3-point boundary run. -/
theorem C2_separation_witness :
    (0 < bdParams.effMinDist ∧ 0 < bdParams.sqrt2 ∧
      2 ≤ bdParams.sqrt2 * bdParams.sqrt2 ∧ bdParams.sqrt2 ≤ 3/2) ∧
    GeneratePoissonPoints bdParams bdRNG 1 = some bdOut ∧
    List.Pairwise (fun p q => p.x < 1 → p.y < 1 → bdParams.minDist2 ≤ p.Dist2 q) bdOut :=
  ⟨⟨by with_unfolding_all decide, by with_unfolding_all decide,
    by with_unfolding_all decide, by with_unfolding_all decide⟩,
   by with_unfolding_all rfl,
   @C2_separation bdParams bdRNG 1 bdOut
     ⟨by with_unfolding_all decide, by with_unfolding_all decide,
      by with_unfolding_all decide, by with_unfolding_all decide⟩
     (by with_unfolding_all rfl)⟩

/-- C3: every point of a successful run satisfies the domain predicate
selected by the `Circle` flag: `IsInRectangle` for the square domain,
`IsInCircle` for the disk domain. -/
theorem C3_domain_membership {P : Params} {r : RNG} {F : ℕ} {out : List sPoint}
    (hg : GeneratePoissonPoints P r F = some out) :
    ∀ p ∈ out, (P.circle = false → p.IsInRectangle = true) ∧
      (P.circle = true → p.IsInCircle = true) := by
  intro p hp
  have h := GeneratePoissonPoints_fits hg p hp
  unfold Params.fits at h
  constructor
  · intro hc; rw [hc] at h; simpa using h
  · intro hc; rw [hc] at h; simpa using h

/-- C3 witness: domain membership evaluated on a 1-point disk run. -/
theorem C3_domain_membership_witness :
    GeneratePoissonPoints dkParams cstRNG 1 = some [⟨1/2, 1/2, true⟩] ∧
    ((dkParams.circle = false → sPoint.IsInRectangle ⟨1/2, 1/2, true⟩ = true) ∧
      (dkParams.circle = true → sPoint.IsInCircle ⟨1/2, 1/2, true⟩ = true)) :=
  ⟨by with_unfolding_all rfl,
   @C3_domain_membership dkParams cstRNG 1 [⟨1/2, 1/2, true⟩] (by with_unfolding_all rfl) _ (List.mem_singleton.mpr rfl)⟩

/-- C4: determinism — the generator is a pure function of its
parameters and of the random source's output streams; two sources with
the same counter and pointwise-equal streams (as two identically seeded
`DefaultPRNG`s are) produce bit-identical outputs: the same points in
the same order. -/
theorem C4_deterministic (P : Params) (r1 r2 : RNG) (F : ℕ)
    (hn : r1.n = r2.n) (hf : ∀ m, r1.fl m = r2.fl m)
    (hi : ∀ m k, r1.ig m k = r2.ig m k) :
    GeneratePoissonPoints P r1 F = GeneratePoissonPoints P r2 F := by
  rw [RNG_ext hn hf hi]

/-- A second random source, syntactically different from `cstRNG` but
with extensionally equal streams. -/
def cstRNG2 : RNG := ⟨0, fun _ => 2/4, fun _ k => min 0 k⟩

/-- C4 witness: two extensionally equal sources give equal outputs. -/
theorem C4_deterministic_witness :
    GeneratePoissonPoints sqParams cstRNG 1 = GeneratePoissonPoints sqParams cstRNG2 1 :=
  C4_deterministic sqParams cstRNG cstRNG2 1 rfl
    (fun m => by show (1 : ℚ)/2 = 2/4; norm_num)
    (fun m k => by show 0 = min 0 k; simp)

/-- C5 counterexample: at `targetCount = 0` the generator still
performs the initial rejection-sampling draw (the returned point's
coordinates are the source's first two floats) and returns a one-point
sequence, not the empty one. -/
theorem C5_counterexample :
    zeroParams.numPoints = 0 ∧
    GeneratePoissonPoints zeroParams cstRNG 1 = some [⟨1/2, 1/2, true⟩] ∧
    some [(⟨1/2, 1/2, true⟩ : sPoint)] ≠ some ([] : List sPoint) :=
  ⟨rfl, by with_unfolding_all rfl, by decide⟩

/-- C5 (amended): with `targetCount = 0` the generator performs the
rejection draw and returns exactly the single seed point; the source
has no special case for `NumPoints == 0` (the spec's empty-sequence
behaviour is a requirement on reimplementations, not reference
behaviour). -/
theorem C5_zero_target {P : Params} {r : RNG} {F : ℕ} {p0 : sPoint} {r1 : RNG}
    (hN : P.numPoints = 0) (hs : seedLoop P F r = some (p0, r1)) :
    GeneratePoissonPoints P r F = some [p0] := by
  unfold GeneratePoissonPoints
  rw [hs]
  show some ((genStep P)^[loopFuel P] (initState P p0 r1)).samplePoints = some [p0]
  have hfix : genStep P (initState P p0 r1) = initState P p0 r1 := by
    refine genStep_eq_self P _ ?_
    rintro ⟨-, h2⟩
    rw [hN] at h2
    exact absurd h2 (by omega)
  rw [genStep_iterate_of_fixed P _ hfix]
  rfl

/-- C5 witness: the amended statement on a concrete `targetCount = 0`
run. -/
theorem C5_zero_target_witness :
    seedLoop zeroParams 1 cstRNG = some (⟨1/2, 1/2, true⟩, ⟨2, cstRNG.fl, cstRNG.ig⟩) ∧
    GeneratePoissonPoints zeroParams cstRNG 1 = some [⟨1/2, 1/2, true⟩] :=
  ⟨by with_unfolding_all rfl,
   @C5_zero_target zeroParams cstRNG 1 ⟨1/2, 1/2, true⟩ ⟨2, cstRNG.fl, cstRNG.ig⟩
     rfl (by with_unfolding_all rfl)⟩

/-- C6 counterexample: with `minDist = 0` (and `targetCount = 4`,
`sqrt(4)/4 = 1/2`) the code does not auto-derive: the test
`if (MinDist < 0.0f)` is strict, so the effective minimum distance
stays `0`, not `1/2` as the claim states for `minDist ≤ 0`. -/
theorem C6_counterexample :
    mdParams.minDist = 0 ∧ Params.effMinDist mdParams = 0 ∧
      mdParams.sqrtN / (mdParams.numPoints : ℚ) = 1/2 ∧ (0 : ℚ) ≠ 1/2 :=
  ⟨rfl, by with_unfolding_all rfl, by with_unfolding_all decide, by with_unfolding_all decide⟩

/-- C6 (amended): the auto-derivation `sqrt(targetCount)/targetCount`
is triggered exactly for strictly negative `minDist` (as the source's
own doc comment says: "use negative value for default"); `minDist = 0`
and positive values are used unchanged.  Neither case is an error. -/
theorem C6_auto_derive (P : Params) :
    (P.minDist < 0 → P.effMinDist = P.sqrtN / (P.numPoints : ℚ)) ∧
    (0 ≤ P.minDist → P.effMinDist = P.minDist) := by
  unfold Params.effMinDist
  constructor
  · intro h; rw [if_pos h]
  · intro h; rw [if_neg (not_lt.mpr h)]

/-- C6 witness: the amended statement at `minDist = 0`. -/
theorem C6_auto_derive_witness :
    (0 : ℚ) ≤ mdParams.minDist ∧ Params.effMinDist mdParams = mdParams.minDist :=
  ⟨le_refl 0, (C6_auto_derive mdParams).2 (le_refl 0)⟩

/-- C7: with `attemptsPerPoint ≤ 0` and `targetCount ≥ 1` the popped
seed spawns no children (the inner loop body runs zero times), the pop
simply drains the active list, no error occurs and the generator
terminates returning exactly the single seed point. -/
theorem C7_no_children {P : Params} {r : RNG} {F : ℕ} {p0 : sPoint} {r1 : RNG}
    (hk : P.newPointsCount ≤ 0) (hN : 1 ≤ P.numPoints)
    (hs : seedLoop P F r = some (p0, r1)) :
    GeneratePoissonPoints P r F = some [p0] := by
  unfold GeneratePoissonPoints
  rw [hs]
  show some ((genStep P)^[loopFuel P] (initState P p0 r1)).samplePoints = some [p0]
  have hk0 : P.newPointsCount.toNat = 0 := Int.toNat_of_nonpos hk
  rcases eq_or_lt_of_le hN with hN1 | hN2
  · have hfix : genStep P (initState P p0 r1) = initState P p0 r1 := by
      refine genStep_eq_self P _ ?_
      rintro ⟨-, h2⟩
      rw [← hN1] at h2
      have : (initState P p0 r1).samplePoints.length = 1 := rfl
      omega
    rw [genStep_iterate_of_fixed P _ hfix]
    rfl
  · have hstep := genStep_initState_of_no_attempts P p0 r1 hk0 hN2
    have hfix2 : genStep P (genStep P (initState P p0 r1)) =
        genStep P (initState P p0 r1) := by
      rw [hstep]
      exact genStep_eq_self P _ (by rintro ⟨h1, -⟩; exact h1 rfl)
    obtain ⟨m, hm⟩ : ∃ m, loopFuel P = m + 1 :=
      ⟨P.numPoints * (P.newPointsCount.toNat + 1), by unfold loopFuel; omega⟩
    rw [hm, Function.iterate_succ_apply, genStep_iterate_of_fixed P _ hfix2 m, hstep]

/-- C7 witness: evaluated with `attemptsPerPoint = 0`,
`targetCount = 2`. -/
theorem C7_no_children_witness :
    oneParams.newPointsCount ≤ 0 ∧ 1 ≤ oneParams.numPoints ∧
    GeneratePoissonPoints oneParams cstRNG 1 = some [⟨1/2, 1/2, true⟩] :=
  ⟨by decide, by decide,
   @C7_no_children oneParams cstRNG 1 ⟨1/2, 1/2, true⟩ ⟨2, cstRNG.fl, cstRNG.ig⟩
     (by decide) (by decide) (by with_unfolding_all rfl)⟩

/-- C8: `IsInNeighbourhood` computes the cell `(cx, cy)` of the query
point and returns `true` iff some cell `(i, j)` with
`cx - 5 ≤ i < cx + 5` and `cy - 5 ≤ j < cy + 5` (`D = 5`), lying within
the grid bounds `0 ≤ i < W`, `0 ≤ j < H`, holds a valid point whose
squared distance to the query point is strictly below `MinDist2`. -/
theorem C8_neighbourhood_iff (g : sGrid) (p : sPoint) (m2 : ℚ) :
    g.IsInNeighbourhood p m2 = true ↔
      ∃ i j : ℤ,
        ((g.GridPoint p).1 - 5 ≤ i ∧ i < (g.GridPoint p).1 + 5 ∧
         (g.GridPoint p).2 - 5 ≤ j ∧ j < (g.GridPoint p).2 + 5) ∧
        (0 ≤ i ∧ i < g.m_W ∧ 0 ≤ j ∧ j < g.m_H) ∧
        (g.m_Grid i j).m_Valid = true ∧ (g.m_Grid i j).Dist2 p < m2 :=
  IsInNeighbourhood_spec g p m2

/-- C9: after any number `n` of outer-loop iterations (each performing
exactly one pop of the active list) the output observed so far is a
prefix of the final output: points are only ever appended, never
reordered or removed. -/
theorem C9_monotonic_growth {P : Params} {r : RNG} {F : ℕ} {out : List sPoint}
    {p0 : sPoint} {r1 : RNG} (hs : seedLoop P F r = some (p0, r1))
    (hg : GeneratePoissonPoints P r F = some out) (n : ℕ) :
    ∃ t : List sPoint,
      out = ((genStep P)^[n] (initState P p0 r1)).samplePoints ++ t := by
  unfold GeneratePoissonPoints at hg
  rw [hs] at hg
  injection hg with hg
  rcases le_or_lt n (loopFuel P) with hn | hn
  · obtain ⟨m, hm⟩ : ∃ m, loopFuel P = m + n := ⟨loopFuel P - n, by omega⟩
    obtain ⟨t, ht⟩ := iterate_samples_append P m ((genStep P)^[n] (initState P p0 r1))
    refine ⟨t, ?_⟩
    rw [← hg, hm, Function.iterate_add_apply]
    exact ht
  · have hfix := genStep_iterate_fixed P (loopFuel P) (initState P p0 r1)
      (meas_initState_le P p0 r1)
    obtain ⟨m, hm⟩ : ∃ m, n = m + loopFuel P := ⟨n - loopFuel P, by omega⟩
    rw [hm, Function.iterate_add_apply, genStep_iterate_of_fixed P _ hfix m]
    exact ⟨[], by rw [List.append_nil, hg]⟩

/-- C9 witness: the prefix property after two pops of a 1-point run. -/
theorem C9_monotonic_growth_witness :
    seedLoop sqParams 1 cstRNG = some (⟨1/2, 1/2, true⟩, ⟨2, cstRNG.fl, cstRNG.ig⟩) ∧
    GeneratePoissonPoints sqParams cstRNG 1 = some [⟨1/2, 1/2, true⟩] ∧
    ∃ t : List sPoint, [(⟨1/2, 1/2, true⟩ : sPoint)] =
      ((genStep sqParams)^[2]
        (initState sqParams ⟨1/2, 1/2, true⟩ ⟨2, cstRNG.fl, cstRNG.ig⟩)).samplePoints ++ t :=
  ⟨by with_unfolding_all rfl, by with_unfolding_all rfl,
   @C9_monotonic_growth sqParams cstRNG 1 [⟨1/2, 1/2, true⟩] ⟨1/2, 1/2, true⟩
     ⟨2, cstRNG.fl, cstRNG.ig⟩ (by with_unfolding_all rfl) (by with_unfolding_all rfl) 2⟩

/-- The cell `sGrid::Insert` would write for `p` lies inside the
`gridW × gridH` backing storage. -/
def Params.InsertInBounds (P : Params) (p : sPoint) : Prop :=
  0 ≤ ratTrunc (p.x * (P.gridW : ℚ)) ∧ ratTrunc (p.x * (P.gridW : ℚ)) < P.gridW ∧
  0 ≤ ratTrunc (p.y * (P.gridH : ℚ)) ∧ ratTrunc (p.y * (P.gridH : ℚ)) < P.gridH

instance (P : Params) (p : sPoint) : Decidable (P.InsertInBounds p) := by
  unfold Params.InsertInBounds
  infer_instance

/-- C10 counterexample: the 2-point boundary run accepts the point
`(1, 1/5)`, which the domain predicate admits (`x ≤ 1`) but whose cell
is `(gridW, 1)` — `Insert`, which has no bounds check, writes outside
the `W × H` storage. -/
theorem C10_counterexample :
    GeneratePoissonPoints b2Params bdRNG 1 = some b2Out ∧
    (⟨1, 1/5, true⟩ : sPoint) ∈ b2Out ∧
    ¬ Params.InsertInBounds b2Params ⟨1, 1/5, true⟩ := by
  refine ⟨by with_unfolding_all rfl, by with_unfolding_all decide, ?_⟩
  with_unfolding_all decide

/-- C10 (amended): the reads of `IsInNeighbourhood` stay within the
`W × H` storage — its result depends only on in-bounds cells — and the
unchecked `Insert` stays within bounds for every output point whose
coordinates are strictly below `1`; an accepted point with `x = 1` or
`y = 1` maps to cell index `W` (resp. `H`), outside the storage. -/
theorem C10_grid_access_bounds :
    (∀ (g g' : sGrid) (p : sPoint) (m2 : ℚ), g.m_W = g'.m_W → g.m_H = g'.m_H →
      (∀ i j : ℤ, 0 ≤ i → i < g.m_W → 0 ≤ j → j < g.m_H → g.m_Grid i j = g'.m_Grid i j) →
      g.IsInNeighbourhood p m2 = g'.IsInNeighbourhood p m2) ∧
    (∀ (P : Params) (r : RNG) (F : ℕ) (out : List sPoint) (p : sPoint),
      GoodParams P → GeneratePoissonPoints P r F = some out → p ∈ out →
      p.x < 1 → p.y < 1 → Params.InsertInBounds P p) := by
  constructor
  · intro g g' p m2 hW hH hc
    exact IsInNeighbourhood_congr g g' hW hH hc p m2
  · intro P r F out p hP hg hp hx hy
    have hfits := GeneratePoissonPoints_fits hg p hp
    obtain ⟨h0, h1, h0y, h1y⟩ := Params.fits_bounds hfits
    have hWpos : 0 < P.gridW := Params.gridW_pos hP
    have hWQ : (0 : ℚ) < (P.gridW : ℚ) := by exact_mod_cast hWpos
    unfold Params.InsertInBounds
    rw [Params.gridH_eq_gridW, ratTrunc_of_nonneg (mul_nonneg h0 hWQ.le),
        ratTrunc_of_nonneg (mul_nonneg h0y hWQ.le)]
    refine ⟨Int.floor_nonneg.mpr (mul_nonneg h0 hWQ.le), ?_,
      Int.floor_nonneg.mpr (mul_nonneg h0y hWQ.le), ?_⟩
    · refine Int.floor_lt.mpr ?_
      calc p.x * (P.gridW : ℚ) < 1 * (P.gridW : ℚ) := mul_lt_mul_of_pos_right hx hWQ
      _ = ((P.gridW : ℤ) : ℚ) := by rw [one_mul]
    · refine Int.floor_lt.mpr ?_
      calc p.y * (P.gridW : ℚ) < 1 * (P.gridW : ℚ) := mul_lt_mul_of_pos_right hy hWQ
      _ = ((P.gridW : ℤ) : ℚ) := by rw [one_mul]

/-- C10 witness: both halves of the amended claim at concrete inputs —
the scan ignores a point stored out of bounds at cell `(12, 4)` of an
`8 × 8` grid, and the in-square output point `(7/10, 1/5)` of the
boundary run has an in-bounds cell. -/
theorem C10_grid_access_bounds_witness :
    ((sGrid.new 8 8).IsInNeighbourhood ⟨1/2, 1/2, true⟩ (1/25) =
      ((sGrid.new 8 8).Insert ⟨3/2, 1/2, true⟩).IsInNeighbourhood ⟨1/2, 1/2, true⟩ (1/25)) ∧
    GeneratePoissonPoints b2Params bdRNG 1 = some b2Out ∧
    Params.InsertInBounds b2Params ⟨7/10, 1/5, true⟩ := by
  refine ⟨?_, by with_unfolding_all rfl, ?_⟩
  · refine C10_grid_access_bounds.1 (sGrid.new 8 8)
      ((sGrid.new 8 8).Insert ⟨3/2, 1/2, true⟩) ⟨1/2, 1/2, true⟩ (1/25) rfl rfl ?_
    intro i j h1 h2 h3 h4
    have hcell : (sGrid.new 8 8).GridPoint ⟨3/2, 1/2, true⟩ = (12, 4) := by
      with_unfolding_all rfl
    have h2b : i < 8 := h2
    show (sGrid.new 8 8).m_Grid i j =
      (if i = ((sGrid.new 8 8).GridPoint ⟨3/2, 1/2, true⟩).1 ∧
          j = ((sGrid.new 8 8).GridPoint ⟨3/2, 1/2, true⟩).2
        then (⟨3/2, 1/2, true⟩ : sPoint) else (sGrid.new 8 8).m_Grid i j)
    rw [hcell, if_neg]
    rintro ⟨hi, -⟩
    omega
  · exact C10_grid_access_bounds.2 b2Params bdRNG 1 b2Out ⟨7/10, 1/5, true⟩
      ⟨by with_unfolding_all decide, by with_unfolding_all decide,
       by with_unfolding_all decide, by with_unfolding_all decide⟩
      (by with_unfolding_all rfl) (by with_unfolding_all decide)
      (by with_unfolding_all decide) (by with_unfolding_all decide)
